import Mathlib

/-!
Shallow embedding of `src/app/state.rs` of the `rust_kanban` repository:
the UI-mode / focus navigation state machine and the key-binding table.

Rust `Vec<T>` becomes `List T`, `Option<T>` becomes `Option T`, `&str`
becomes `String`.  Panicking operations (`slice[i]`, `Option::unwrap`)
are modelled with `Option`-returning accessors so that reachability of a
panic is expressible.  `u8` becomes `Nat` (the only `u8` here is matched
against the literals 1..9 with a catch-all arm, so width is irrelevant).
-/

set_option maxHeartbeats 1000000

namespace RustKanban

/-- The `UiMode` enum (src/app/state.rs lines 10-34), declaration order
preserved; `Zen` carries `#[default]`. -/
inductive UiMode
  | BodyHelp
  | BodyHelpLog
  | BodyLog
  | ConfigMenu
  | CreateTheme
  | EditKeybindings
  | HelpMenu
  | LoadCloudSave
  | LoadLocalSave
  | Login
  | LogsOnly
  | MainMenu
  | NewBoard
  | NewCard
  | ResetPassword
  | SignUp
  | TitleBody
  | TitleBodyHelp
  | TitleBodyHelpLog
  | TitleBodyLog
  | Zen
  deriving DecidableEq, Repr

/-- The `Focus` enum (src/app/state.rs lines 45-92), declaration order
preserved; `NoFocus` carries `#[default]`. -/
inductive Focus
  | Body
  | CardComments
  | CardDescription
  | CardDueDate
  | CardName
  | CardPriority
  | CardStatus
  | CardTags
  | ChangeCardPriorityPopup
  | ChangeCardStatusPopup
  | ChangeDateFormatPopup
  | ChangeUiModePopup
  | CloseButton
  | CommandPaletteBoard
  | CommandPaletteCard
  | CommandPaletteCommand
  | ConfigHelp
  | ConfigTable
  | ConfirmPasswordField
  | EditGeneralConfigPopup
  | EditKeybindingsTable
  | EditSpecificKeyBindingPopup
  | EmailIDField
  | ExtraFocus
  | FilterByTagPopup
  | Help
  | LoadSave
  | Log
  | MainMenu
  | NewBoardDescription
  | NewBoardName
  | NoFocus
  | PasswordField
  | ResetPasswordLinkField
  | SelectDefaultView
  | SendResetPasswordLinkButton
  | StyleEditorBG
  | StyleEditorFG
  | StyleEditorModifier
  | SubmitButton
  | TextInput
  | ThemeEditor
  | ThemeSelector
  | Title
  deriving DecidableEq, Repr

/-- `#[default]` on `Focus::NoFocus` (src/app/state.rs line 78). -/
instance : Inhabited Focus := ⟨Focus.NoFocus⟩

/-- Modelled from the spec: the `Key` type lives in `src/inputs/key.rs`,
which is outside the provided sources.  The spec describes it as "an
opaque, equality-comparable value representing one physical key chord
(plain character, modified character, named key)"; the constructors below
are exactly the ones referenced by `KeyBindings::default` in
src/app/state.rs (plus `Alt`, a modified character mentioned by the
spec's taxonomy). -/
inductive Key
  | Char (c : Char)
  | Ctrl (c : Char)
  | Alt (c : Char)
  | Enter
  | Tab
  | BackTab
  | Esc
  | Delete
  | Ins
  | Up
  | Down
  | Left
  | Right
  | ShiftUp
  | ShiftDown
  | ShiftLeft
  | ShiftRight
  deriving DecidableEq, Repr

/-- Modelled from the spec: the `Action` enum lives in
`src/app/actions.rs`, outside the provided sources.  The spec calls it a
"closed set of abstract commands"; the variants below are exactly those
referenced by `KeyBindings::keybinding_enum_to_action` in
src/app/state.rs. -/
inductive Action
  | Accept
  | ChangeCardStatusToActive
  | ChangeCardStatusToCompleted
  | ChangeCardStatusToStale
  | ChangeCardPriorityToHigh
  | ChangeCardPriorityToMedium
  | ChangeCardPriorityToLow
  | ClearAllToasts
  | DeleteBoard
  | Delete
  | Down
  | GoToMainMenu
  | GoToPreviousUIModeorCancel
  | HideUiElement
  | Left
  | MoveCardDown
  | MoveCardLeft
  | MoveCardRight
  | MoveCardUp
  | NewBoard
  | NewCard
  | NextFocus
  | OpenConfigMenu
  | PrvFocus
  | Quit
  | Redo
  | ResetUI
  | Right
  | SaveState
  | StopUserInput
  | TakeUserInput
  | ToggleCommandPalette
  | Undo
  | Up
  deriving DecidableEq, Repr

/-- The `KeyBindingEnum` enum (src/app/state.rs lines 132-168),
declaration order preserved; it derives strum's `EnumIter`, `EnumString`
and `Display`. -/
inductive KeyBindingEnum
  | Accept
  | ChangeCardStatusToActive
  | ChangeCardStatusToCompleted
  | ChangeCardStatusToStale
  | ChangeCardPriorityToHigh
  | ChangeCardPriorityToMedium
  | ChangeCardPriorityToLow
  | ClearAllToasts
  | DeleteBoard
  | DeleteCard
  | Down
  | GoToMainMenu
  | GoToPreviousUIModeorCancel
  | HideUiElement
  | Left
  | MoveCardDown
  | MoveCardLeft
  | MoveCardRight
  | MoveCardUp
  | NewBoard
  | NewCard
  | NextFocus
  | OpenConfigMenu
  | PrvFocus
  | Quit
  | Redo
  | ResetUI
  | Right
  | SaveState
  | StopUserInput
  | TakeUserInput
  | ToggleCommandPalette
  | Undo
  | Up
  deriving DecidableEq, Repr

/-- The `KeyBindings` struct (src/app/state.rs lines 94-130): one
`Vec<Key>` field per binding name, field order as declared. -/
structure KeyBindings where
  accept : List Key
  change_card_status_to_active : List Key
  change_card_status_to_completed : List Key
  change_card_status_to_stale : List Key
  change_card_priority_to_high : List Key
  change_card_priority_to_medium : List Key
  change_card_priority_to_low : List Key
  clear_all_toasts : List Key
  delete_board : List Key
  delete_card : List Key
  down : List Key
  go_to_main_menu : List Key
  go_to_previous_ui_mode_or_cancel : List Key
  hide_ui_element : List Key
  left : List Key
  move_card_down : List Key
  move_card_left : List Key
  move_card_right : List Key
  move_card_up : List Key
  new_board : List Key
  new_card : List Key
  next_focus : List Key
  open_config_menu : List Key
  prv_focus : List Key
  quit : List Key
  redo : List Key
  reset_ui : List Key
  right : List Key
  save_state : List Key
  stop_user_input : List Key
  take_user_input : List Key
  toggle_command_palette : List Key
  undo : List Key
  up : List Key
  deriving DecidableEq, Repr

/-- `UiMode::from_string` (src/app/state.rs lines 171-196): exact,
case-sensitive match on the canonical display label. -/
def UiMode.from_string (s : String) : Option UiMode :=
  match s with
  | "Body and Help" => some UiMode.BodyHelp
  | "Body, Help and Log" => some UiMode.BodyHelpLog
  | "Body and Log" => some UiMode.BodyLog
  | "Config" => some UiMode.ConfigMenu
  | "Create Theme" => some UiMode.CreateTheme
  | "Edit Keybindings" => some UiMode.EditKeybindings
  | "Help Menu" => some UiMode.HelpMenu
  | "Load a Save (Cloud)" => some UiMode.LoadCloudSave
  | "Load a Save (Local)" => some UiMode.LoadLocalSave
  | "Login" => some UiMode.Login
  | "Logs Only" => some UiMode.LogsOnly
  | "Main Menu" => some UiMode.MainMenu
  | "New Board" => some UiMode.NewBoard
  | "New Card" => some UiMode.NewCard
  | "Reset Password" => some UiMode.ResetPassword
  | "Sign Up" => some UiMode.SignUp
  | "Title and Body" => some UiMode.TitleBody
  | "Title, Body and Help" => some UiMode.TitleBodyHelp
  | "Title, Body, Help and Log" => some UiMode.TitleBodyHelpLog
  | "Title, Body and Log" => some UiMode.TitleBodyLog
  | "Zen" => some UiMode.Zen
  | _ => none

/-- `impl fmt::Display for UiMode` (src/app/state.rs lines 355-381): the
canonical display label of each variant. -/
def UiMode.to_string : UiMode → String
  | UiMode.BodyHelp => "Body and Help"
  | UiMode.BodyHelpLog => "Body, Help and Log"
  | UiMode.BodyLog => "Body and Log"
  | UiMode.ConfigMenu => "Config"
  | UiMode.CreateTheme => "Create Theme"
  | UiMode.EditKeybindings => "Edit Keybindings"
  | UiMode.HelpMenu => "Help Menu"
  | UiMode.LoadCloudSave => "Load a Save (Cloud)"
  | UiMode.LoadLocalSave => "Load a Save (Local)"
  | UiMode.Login => "Login"
  | UiMode.LogsOnly => "Logs Only"
  | UiMode.MainMenu => "Main Menu"
  | UiMode.NewBoard => "New Board"
  | UiMode.NewCard => "New Card"
  | UiMode.ResetPassword => "Reset Password"
  | UiMode.SignUp => "Sign Up"
  | UiMode.TitleBody => "Title and Body"
  | UiMode.TitleBodyHelp => "Title, Body and Help"
  | UiMode.TitleBodyHelpLog => "Title, Body, Help and Log"
  | UiMode.TitleBodyLog => "Title, Body and Log"
  | UiMode.Zen => "Zen"

/-- `UiMode::from_number` (src/app/state.rs lines 198-214): numbers 1-9
select a layout; anything else is logged and falls back to `TitleBody`. -/
def UiMode.from_number (n : Nat) : UiMode :=
  match n with
  | 1 => UiMode.Zen
  | 2 => UiMode.TitleBody
  | 3 => UiMode.BodyHelp
  | 4 => UiMode.BodyLog
  | 5 => UiMode.TitleBodyHelp
  | 6 => UiMode.TitleBodyLog
  | 7 => UiMode.BodyHelpLog
  | 8 => UiMode.TitleBodyHelpLog
  | 9 => UiMode.LogsOnly
  | _ => UiMode.TitleBody

/-- `UiMode::get_available_targets` (src/app/state.rs lines 216-271). -/
def UiMode.get_available_targets : UiMode → List Focus
  | UiMode.BodyHelp => [Focus.Body, Focus.Help]
  | UiMode.BodyHelpLog => [Focus.Body, Focus.Help, Focus.Log]
  | UiMode.BodyLog => [Focus.Body, Focus.Log]
  | UiMode.ConfigMenu => [Focus.ConfigTable, Focus.SubmitButton, Focus.ExtraFocus]
  | UiMode.CreateTheme => [Focus.ThemeEditor, Focus.SubmitButton, Focus.ExtraFocus]
  | UiMode.EditKeybindings => [Focus.EditKeybindingsTable, Focus.SubmitButton]
  | UiMode.HelpMenu => [Focus.Help, Focus.Log]
  | UiMode.LoadCloudSave => [Focus.Body]
  | UiMode.LoadLocalSave => [Focus.Body]
  | UiMode.Login =>
      [Focus.Title, Focus.EmailIDField, Focus.PasswordField, Focus.ExtraFocus,
       Focus.SubmitButton]
  | UiMode.LogsOnly => [Focus.Log]
  | UiMode.MainMenu => [Focus.MainMenu, Focus.Help, Focus.Log]
  | UiMode.NewBoard =>
      [Focus.NewBoardName, Focus.NewBoardDescription, Focus.SubmitButton]
  | UiMode.NewCard =>
      [Focus.CardName, Focus.CardDescription, Focus.CardDueDate, Focus.SubmitButton]
  | UiMode.ResetPassword =>
      [Focus.Title, Focus.EmailIDField, Focus.SendResetPasswordLinkButton,
       Focus.ResetPasswordLinkField, Focus.PasswordField, Focus.ConfirmPasswordField,
       Focus.ExtraFocus, Focus.SubmitButton]
  | UiMode.SignUp =>
      [Focus.Title, Focus.EmailIDField, Focus.PasswordField, Focus.ConfirmPasswordField,
       Focus.ExtraFocus, Focus.SubmitButton]
  | UiMode.TitleBody => [Focus.Title, Focus.Body]
  | UiMode.TitleBodyHelp => [Focus.Title, Focus.Body, Focus.Help]
  | UiMode.TitleBodyHelpLog => [Focus.Title, Focus.Body, Focus.Help, Focus.Log]
  | UiMode.TitleBodyLog => [Focus.Title, Focus.Body, Focus.Log]
  | UiMode.Zen => [Focus.Body]

/-- `UiMode::view_modes` (src/app/state.rs lines 277-288). -/
def UiMode.view_modes : List UiMode :=
  [UiMode.Zen, UiMode.TitleBody, UiMode.BodyHelp, UiMode.BodyLog,
   UiMode.TitleBodyHelp, UiMode.TitleBodyLog, UiMode.BodyHelpLog,
   UiMode.TitleBodyHelpLog]

/-- Shallow embedding of Rust's `Iterator::position(pred)`: the index of
the first element satisfying the predicate, or `none`.  Used by
`Focus::next` / `Focus::prev` (src/app/state.rs lines 396 and 408). -/
def position {α : Type} (p : α → Prop) [DecidablePred p] : List α → Option Nat
  | [] => none
  | a :: rest => if p a then some 0 else (position p rest).map (· + 1)

/-- `Focus::next` (src/app/state.rs lines 394-405).  The Rust body uses
panicking operations (`position(..).unwrap()` and slice indexing), so the
embedding returns `Option Focus`, `none` marking a reachable panic. -/
def Focus.next (self : Focus) (available_tabs : List Focus) : Option Focus :=
  if self ∈ available_tabs then
    match position (fun x => x = self) available_tabs with
    | none => none
    | some index =>
      if index = available_tabs.length - 1 then
        available_tabs.get? 0
      else
        available_tabs.get? (index + 1)
  else
    available_tabs.get? 0

/-- `Focus::prev` (src/app/state.rs lines 406-417), with the same
panic-as-`none` convention as `Focus.next`. -/
def Focus.prev (self : Focus) (available_tabs : List Focus) : Option Focus :=
  if self ∈ available_tabs then
    match position (fun x => x = self) available_tabs with
    | none => none
    | some index =>
      if index = 0 then
        available_tabs.get? (available_tabs.length - 1)
      else
        available_tabs.get? (index - 1)
  else
    available_tabs.get? 0

/-- The slice of the application context that `UiMode::render` touches:
`app.state.popup_mode` and `app.state.focus`.  The popup payload type is
defined outside the provided sources and `render` never inspects it, so
it is a type parameter. -/
structure AppState (PopupMode : Type) where
  popup_mode : Option PopupMode
  focus : Focus

/-- The state-mutating prefix of `UiMode::render` (src/app/state.rs lines
290-298): when no popup is active and the current focus is not among the
mode's available targets (and that list is non-empty), focus is reset to
the first target.  The subsequent dispatch to a `ui_helper` draw routine
is an external collaborator with no effect on this state (`set_focus` is
modelled from the spec as storing the focus in the context). -/
def UiMode.render {P : Type} (self : UiMode) (app : AppState P) : AppState P :=
  if app.popup_mode.isNone then
    if app.focus ∉ self.get_available_targets ∧ self.get_available_targets ≠ [] then
      { app with focus := self.get_available_targets.headI }
    else
      app
  else
    app

/-- strum `EnumString` for `KeyBindingEnum` (derive on src/app/state.rs
line 132): parses exactly the variant's declared name. -/
def KeyBindingEnum.from_str (s : String) : Option KeyBindingEnum :=
  match s with
  | "Accept" => some KeyBindingEnum.Accept
  | "ChangeCardStatusToActive" => some KeyBindingEnum.ChangeCardStatusToActive
  | "ChangeCardStatusToCompleted" => some KeyBindingEnum.ChangeCardStatusToCompleted
  | "ChangeCardStatusToStale" => some KeyBindingEnum.ChangeCardStatusToStale
  | "ChangeCardPriorityToHigh" => some KeyBindingEnum.ChangeCardPriorityToHigh
  | "ChangeCardPriorityToMedium" => some KeyBindingEnum.ChangeCardPriorityToMedium
  | "ChangeCardPriorityToLow" => some KeyBindingEnum.ChangeCardPriorityToLow
  | "ClearAllToasts" => some KeyBindingEnum.ClearAllToasts
  | "DeleteBoard" => some KeyBindingEnum.DeleteBoard
  | "DeleteCard" => some KeyBindingEnum.DeleteCard
  | "Down" => some KeyBindingEnum.Down
  | "GoToMainMenu" => some KeyBindingEnum.GoToMainMenu
  | "GoToPreviousUIModeorCancel" => some KeyBindingEnum.GoToPreviousUIModeorCancel
  | "HideUiElement" => some KeyBindingEnum.HideUiElement
  | "Left" => some KeyBindingEnum.Left
  | "MoveCardDown" => some KeyBindingEnum.MoveCardDown
  | "MoveCardLeft" => some KeyBindingEnum.MoveCardLeft
  | "MoveCardRight" => some KeyBindingEnum.MoveCardRight
  | "MoveCardUp" => some KeyBindingEnum.MoveCardUp
  | "NewBoard" => some KeyBindingEnum.NewBoard
  | "NewCard" => some KeyBindingEnum.NewCard
  | "NextFocus" => some KeyBindingEnum.NextFocus
  | "OpenConfigMenu" => some KeyBindingEnum.OpenConfigMenu
  | "PrvFocus" => some KeyBindingEnum.PrvFocus
  | "Quit" => some KeyBindingEnum.Quit
  | "Redo" => some KeyBindingEnum.Redo
  | "ResetUI" => some KeyBindingEnum.ResetUI
  | "Right" => some KeyBindingEnum.Right
  | "SaveState" => some KeyBindingEnum.SaveState
  | "StopUserInput" => some KeyBindingEnum.StopUserInput
  | "TakeUserInput" => some KeyBindingEnum.TakeUserInput
  | "ToggleCommandPalette" => some KeyBindingEnum.ToggleCommandPalette
  | "Undo" => some KeyBindingEnum.Undo
  | "Up" => some KeyBindingEnum.Up
  | _ => none

/-- strum `EnumIter` order for `KeyBindingEnum`: the declaration order of
src/app/state.rs lines 133-167. -/
def KeyBindingEnum.iter_order : List KeyBindingEnum :=
  [KeyBindingEnum.Accept,
   KeyBindingEnum.ChangeCardStatusToActive,
   KeyBindingEnum.ChangeCardStatusToCompleted,
   KeyBindingEnum.ChangeCardStatusToStale,
   KeyBindingEnum.ChangeCardPriorityToHigh,
   KeyBindingEnum.ChangeCardPriorityToMedium,
   KeyBindingEnum.ChangeCardPriorityToLow,
   KeyBindingEnum.ClearAllToasts,
   KeyBindingEnum.DeleteBoard,
   KeyBindingEnum.DeleteCard,
   KeyBindingEnum.Down,
   KeyBindingEnum.GoToMainMenu,
   KeyBindingEnum.GoToPreviousUIModeorCancel,
   KeyBindingEnum.HideUiElement,
   KeyBindingEnum.Left,
   KeyBindingEnum.MoveCardDown,
   KeyBindingEnum.MoveCardLeft,
   KeyBindingEnum.MoveCardRight,
   KeyBindingEnum.MoveCardUp,
   KeyBindingEnum.NewBoard,
   KeyBindingEnum.NewCard,
   KeyBindingEnum.NextFocus,
   KeyBindingEnum.OpenConfigMenu,
   KeyBindingEnum.PrvFocus,
   KeyBindingEnum.Quit,
   KeyBindingEnum.Redo,
   KeyBindingEnum.ResetUI,
   KeyBindingEnum.Right,
   KeyBindingEnum.SaveState,
   KeyBindingEnum.StopUserInput,
   KeyBindingEnum.TakeUserInput,
   KeyBindingEnum.ToggleCommandPalette,
   KeyBindingEnum.Undo,
   KeyBindingEnum.Up]

/-- The field selected for each binding name inside `KeyBindings::iter`
(src/app/state.rs lines 423-462). -/
def KeyBindings.field_of (self : KeyBindings) : KeyBindingEnum → List Key
  | KeyBindingEnum.Accept => self.accept
  | KeyBindingEnum.ChangeCardStatusToActive => self.change_card_status_to_active
  | KeyBindingEnum.ChangeCardStatusToCompleted => self.change_card_status_to_completed
  | KeyBindingEnum.ChangeCardStatusToStale => self.change_card_status_to_stale
  | KeyBindingEnum.ChangeCardPriorityToHigh => self.change_card_priority_to_high
  | KeyBindingEnum.ChangeCardPriorityToMedium => self.change_card_priority_to_medium
  | KeyBindingEnum.ChangeCardPriorityToLow => self.change_card_priority_to_low
  | KeyBindingEnum.ClearAllToasts => self.clear_all_toasts
  | KeyBindingEnum.DeleteBoard => self.delete_board
  | KeyBindingEnum.DeleteCard => self.delete_card
  | KeyBindingEnum.Down => self.down
  | KeyBindingEnum.GoToMainMenu => self.go_to_main_menu
  | KeyBindingEnum.GoToPreviousUIModeorCancel => self.go_to_previous_ui_mode_or_cancel
  | KeyBindingEnum.HideUiElement => self.hide_ui_element
  | KeyBindingEnum.Left => self.left
  | KeyBindingEnum.MoveCardDown => self.move_card_down
  | KeyBindingEnum.MoveCardLeft => self.move_card_left
  | KeyBindingEnum.MoveCardRight => self.move_card_right
  | KeyBindingEnum.MoveCardUp => self.move_card_up
  | KeyBindingEnum.NewBoard => self.new_board
  | KeyBindingEnum.NewCard => self.new_card
  | KeyBindingEnum.NextFocus => self.next_focus
  | KeyBindingEnum.OpenConfigMenu => self.open_config_menu
  | KeyBindingEnum.PrvFocus => self.prv_focus
  | KeyBindingEnum.Quit => self.quit
  | KeyBindingEnum.Redo => self.redo
  | KeyBindingEnum.ResetUI => self.reset_ui
  | KeyBindingEnum.Right => self.right
  | KeyBindingEnum.SaveState => self.save_state
  | KeyBindingEnum.StopUserInput => self.stop_user_input
  | KeyBindingEnum.TakeUserInput => self.take_user_input
  | KeyBindingEnum.ToggleCommandPalette => self.toggle_command_palette
  | KeyBindingEnum.Undo => self.undo
  | KeyBindingEnum.Up => self.up

/-- `KeyBindings::iter` (src/app/state.rs lines 421-465):
`KeyBindingEnum::iter().map(|v| (v, field of v))`. -/
def KeyBindings.iter (self : KeyBindings) : List (KeyBindingEnum × List Key) :=
  KeyBindingEnum.iter_order.map (fun enum_variant => (enum_variant, self.field_of enum_variant))

/-- `KeyBindings::keybinding_enum_to_action` (src/app/state.rs lines
475-512): the static binding-name → action table. -/
def KeyBindings.keybinding_enum_to_action (_self : KeyBindings) :
    KeyBindingEnum → Action
  | KeyBindingEnum.Accept => Action.Accept
  | KeyBindingEnum.ChangeCardStatusToActive => Action.ChangeCardStatusToActive
  | KeyBindingEnum.ChangeCardStatusToCompleted => Action.ChangeCardStatusToCompleted
  | KeyBindingEnum.ChangeCardStatusToStale => Action.ChangeCardStatusToStale
  | KeyBindingEnum.ChangeCardPriorityToHigh => Action.ChangeCardPriorityToHigh
  | KeyBindingEnum.ChangeCardPriorityToMedium => Action.ChangeCardPriorityToMedium
  | KeyBindingEnum.ChangeCardPriorityToLow => Action.ChangeCardPriorityToLow
  | KeyBindingEnum.ClearAllToasts => Action.ClearAllToasts
  | KeyBindingEnum.DeleteBoard => Action.DeleteBoard
  | KeyBindingEnum.DeleteCard => Action.Delete
  | KeyBindingEnum.Down => Action.Down
  | KeyBindingEnum.GoToMainMenu => Action.GoToMainMenu
  | KeyBindingEnum.GoToPreviousUIModeorCancel => Action.GoToPreviousUIModeorCancel
  | KeyBindingEnum.HideUiElement => Action.HideUiElement
  | KeyBindingEnum.Left => Action.Left
  | KeyBindingEnum.MoveCardDown => Action.MoveCardDown
  | KeyBindingEnum.MoveCardLeft => Action.MoveCardLeft
  | KeyBindingEnum.MoveCardRight => Action.MoveCardRight
  | KeyBindingEnum.MoveCardUp => Action.MoveCardUp
  | KeyBindingEnum.NewBoard => Action.NewBoard
  | KeyBindingEnum.NewCard => Action.NewCard
  | KeyBindingEnum.NextFocus => Action.NextFocus
  | KeyBindingEnum.OpenConfigMenu => Action.OpenConfigMenu
  | KeyBindingEnum.PrvFocus => Action.PrvFocus
  | KeyBindingEnum.Quit => Action.Quit
  | KeyBindingEnum.Redo => Action.Redo
  | KeyBindingEnum.ResetUI => Action.ResetUI
  | KeyBindingEnum.Right => Action.Right
  | KeyBindingEnum.SaveState => Action.SaveState
  | KeyBindingEnum.StopUserInput => Action.StopUserInput
  | KeyBindingEnum.TakeUserInput => Action.TakeUserInput
  | KeyBindingEnum.ToggleCommandPalette => Action.ToggleCommandPalette
  | KeyBindingEnum.Undo => Action.Undo
  | KeyBindingEnum.Up => Action.Up

/-- `KeyBindings::key_to_action` (src/app/state.rs lines 467-473): the
first binding in `iter` order whose key list contains the key wins. -/
def KeyBindings.key_to_action (self : KeyBindings) (key : Key) : Option Action :=
  let keybinding_enum :=
    (self.iter.find? (fun p => decide (key ∈ p.2))).map (fun p => p.1)
  keybinding_enum.map (fun e => self.keybinding_enum_to_action e)

/-- Shallow embedding of Rust's `Vec::dedup` (called by
`KeyBindings::edit_keybinding`, src/app/state.rs line 516): removes only
*consecutive* repeated elements. -/
def vecDedup {α : Type} [DecidableEq α] : List α → List α
  | [] => []
  | [a] => [a]
  | a :: b :: rest =>
      if a = b then vecDedup (b :: rest) else a :: vecDedup (b :: rest)

/-- The field replacement performed by the successful-parse arm of
`KeyBindings::edit_keybinding` (src/app/state.rs lines 519-568). -/
def KeyBindings.set_field (self : KeyBindings) (e : KeyBindingEnum)
    (keybinding : List Key) : KeyBindings :=
  match e with
  | KeyBindingEnum.Accept => { self with accept := keybinding }
  | KeyBindingEnum.ChangeCardStatusToActive =>
      { self with change_card_status_to_active := keybinding }
  | KeyBindingEnum.ChangeCardStatusToCompleted =>
      { self with change_card_status_to_completed := keybinding }
  | KeyBindingEnum.ChangeCardStatusToStale =>
      { self with change_card_status_to_stale := keybinding }
  | KeyBindingEnum.ChangeCardPriorityToHigh =>
      { self with change_card_priority_to_high := keybinding }
  | KeyBindingEnum.ChangeCardPriorityToMedium =>
      { self with change_card_priority_to_medium := keybinding }
  | KeyBindingEnum.ChangeCardPriorityToLow =>
      { self with change_card_priority_to_low := keybinding }
  | KeyBindingEnum.ClearAllToasts => { self with clear_all_toasts := keybinding }
  | KeyBindingEnum.DeleteBoard => { self with delete_board := keybinding }
  | KeyBindingEnum.DeleteCard => { self with delete_card := keybinding }
  | KeyBindingEnum.Down => { self with down := keybinding }
  | KeyBindingEnum.GoToMainMenu => { self with go_to_main_menu := keybinding }
  | KeyBindingEnum.GoToPreviousUIModeorCancel =>
      { self with go_to_previous_ui_mode_or_cancel := keybinding }
  | KeyBindingEnum.HideUiElement => { self with hide_ui_element := keybinding }
  | KeyBindingEnum.Left => { self with left := keybinding }
  | KeyBindingEnum.MoveCardDown => { self with move_card_down := keybinding }
  | KeyBindingEnum.MoveCardLeft => { self with move_card_left := keybinding }
  | KeyBindingEnum.MoveCardRight => { self with move_card_right := keybinding }
  | KeyBindingEnum.MoveCardUp => { self with move_card_up := keybinding }
  | KeyBindingEnum.NewBoard => { self with new_board := keybinding }
  | KeyBindingEnum.NewCard => { self with new_card := keybinding }
  | KeyBindingEnum.NextFocus => { self with next_focus := keybinding }
  | KeyBindingEnum.OpenConfigMenu => { self with open_config_menu := keybinding }
  | KeyBindingEnum.PrvFocus => { self with prv_focus := keybinding }
  | KeyBindingEnum.Quit => { self with quit := keybinding }
  | KeyBindingEnum.Redo => { self with redo := keybinding }
  | KeyBindingEnum.ResetUI => { self with reset_ui := keybinding }
  | KeyBindingEnum.Right => { self with right := keybinding }
  | KeyBindingEnum.SaveState => { self with save_state := keybinding }
  | KeyBindingEnum.StopUserInput => { self with stop_user_input := keybinding }
  | KeyBindingEnum.TakeUserInput => { self with take_user_input := keybinding }
  | KeyBindingEnum.ToggleCommandPalette =>
      { self with toggle_command_palette := keybinding }
  | KeyBindingEnum.Undo => { self with undo := keybinding }
  | KeyBindingEnum.Up => { self with up := keybinding }

/-- `KeyBindings::edit_keybinding` (src/app/state.rs lines 514-573):
`dedup` the incoming list, parse the identifier; on success replace that
binding's field, on failure log and leave the table unchanged.  The Rust
method mutates in place and returns `&mut Self`; the embedding returns
the updated table. -/
def KeyBindings.edit_keybinding (self : KeyBindings) (key : String)
    (keybinding : List Key) : KeyBindings :=
  let keybinding := vecDedup keybinding
  let keybinding_enum := KeyBindingEnum.from_str key
  match keybinding_enum with
  | some e => self.set_field e keybinding
  | none => self

/-- `KeyBindings::get_keybindings` (src/app/state.rs lines 575-626):
returns a clone of the requested binding's key list (always `Some`). -/
def KeyBindings.get_keybindings (self : KeyBindings) (keybinding_enum : KeyBindingEnum) :
    Option (List Key) :=
  some (self.field_of keybinding_enum)

/-- `impl Default for KeyBindings` (src/app/state.rs lines 629-667). -/
def KeyBindings.default : KeyBindings where
  accept := [Key.Enter]
  change_card_status_to_completed := [Key.Char '1']
  change_card_status_to_active := [Key.Char '2']
  change_card_status_to_stale := [Key.Char '3']
  change_card_priority_to_high := [Key.Char '4']
  change_card_priority_to_medium := [Key.Char '5']
  change_card_priority_to_low := [Key.Char '6']
  clear_all_toasts := [Key.Char 't']
  delete_board := [Key.Char 'D']
  delete_card := [Key.Char 'd', Key.Delete]
  down := [Key.Down]
  go_to_main_menu := [Key.Char 'm']
  go_to_previous_ui_mode_or_cancel := [Key.Esc]
  hide_ui_element := [Key.Char 'h']
  left := [Key.Left]
  move_card_down := [Key.ShiftDown]
  move_card_left := [Key.ShiftLeft]
  move_card_right := [Key.ShiftRight]
  move_card_up := [Key.ShiftUp]
  new_board := [Key.Char 'b']
  new_card := [Key.Char 'n']
  next_focus := [Key.Tab]
  open_config_menu := [Key.Char 'c']
  prv_focus := [Key.BackTab]
  quit := [Key.Ctrl 'c', Key.Char 'q']
  redo := [Key.Ctrl 'y']
  reset_ui := [Key.Char 'r']
  right := [Key.Right]
  save_state := [Key.Ctrl 's']
  stop_user_input := [Key.Ins]
  take_user_input := [Key.Char 'i']
  toggle_command_palette := [Key.Ctrl 'p']
  undo := [Key.Ctrl 'z']
  up := [Key.Up]

/-! ### Helper lemmas -/

lemma headI_mem_of_ne_nil {α : Type} [Inhabited α] {l : List α} (h : l ≠ []) :
    l.headI ∈ l := by
  cases l with
  | nil => exact absurd rfl h
  | cons a t => exact List.mem_cons_self a t

lemma position_isSome_of_mem {α : Type} [DecidableEq α] {a : α} {l : List α}
    (h : a ∈ l) : ∃ i, position (fun x => x = a) l = some i := by
  induction l with
  | nil => cases h
  | cons b t ih =>
    by_cases hb : b = a
    · exact ⟨0, by simp [position, hb]⟩
    · rcases ih (by
        rcases List.mem_cons.mp h with h' | h'
        · exact absurd h'.symm hb
        · exact h') with ⟨i, hi⟩
      exact ⟨i + 1, by simp [position, hb, hi]⟩

lemma position_lt_length {α : Type} {p : α → Prop} [DecidablePred p] {l : List α}
    {i : Nat} (h : position p l = some i) : i < l.length := by
  induction l generalizing i with
  | nil => simp [position] at h
  | cons b t ih =>
    simp only [position] at h
    split at h
    · cases h; simp
    · rcases Option.map_eq_some'.mp h with ⟨j, hj, rfl⟩
      simpa using Nat.succ_lt_succ (ih hj)

lemma position_get_of_nodup {α : Type} [DecidableEq α] {l : List α} (hnd : l.Nodup)
    (i : Nat) (hi : i < l.length) :
    position (fun x => x = l.get ⟨i, hi⟩) l = some i := by
  induction l generalizing i with
  | nil => simp at hi
  | cons b t ih =>
    cases i with
    | zero => simp [position]
    | succ j =>
      have hj : j < t.length := by simpa using hi
      have hb : b ≠ t.get ⟨j, hj⟩ := by
        intro hcontr
        exact (List.nodup_cons.mp hnd).1 (hcontr ▸ List.get_mem t j hj)
      have ihj := ih (List.nodup_cons.mp hnd).2 j hj
      simp only [List.get_cons_succ, position, hb, if_false]
      rw [ihj]
      rfl

lemma next_get_nodup {l : List Focus} (hnd : l.Nodup) {i j : Nat}
    (hi : i < l.length) (hj : j < l.length) (hij : j = (i + 1) % l.length) :
    Focus.next (l.get ⟨i, hi⟩) l = some (l.get ⟨j, hj⟩) := by
  have hmem : l.get ⟨i, hi⟩ ∈ l := List.get_mem l i hi
  have hposn := position_get_of_nodup hnd i hi
  unfold Focus.next
  rw [if_pos hmem, hposn]
  show (if i = l.length - 1 then l.get? 0 else l.get? (i + 1)) = some (l.get ⟨j, hj⟩)
  by_cases hlast : i = l.length - 1
  · rw [if_pos hlast]
    have hlen : i + 1 = l.length := by omega
    have hz : j = 0 := by rw [hij, hlen, Nat.mod_self]
    have h0 : 0 < l.length := by omega
    rw [List.get?_eq_get h0]
    congr 1
    exact congrArg l.get (Fin.ext hz.symm)
  · rw [if_neg hlast]
    have hsucc : i + 1 < l.length := by omega
    have hjj : j = i + 1 := by rw [hij, Nat.mod_eq_of_lt hsucc]
    rw [List.get?_eq_get hsucc]
    congr 1
    exact congrArg l.get (Fin.ext hjj.symm)

lemma prev_get_nodup {l : List Focus} (hnd : l.Nodup) {i j : Nat}
    (hi : i < l.length) (hj : j < l.length)
    (hij : j = (i + l.length - 1) % l.length) :
    Focus.prev (l.get ⟨i, hi⟩) l = some (l.get ⟨j, hj⟩) := by
  have hmem : l.get ⟨i, hi⟩ ∈ l := List.get_mem l i hi
  have hposn := position_get_of_nodup hnd i hi
  unfold Focus.prev
  rw [if_pos hmem, hposn]
  show (if i = 0 then l.get? (l.length - 1) else l.get? (i - 1)) = some (l.get ⟨j, hj⟩)
  by_cases hzero : i = 0
  · rw [if_pos hzero]
    have hlt : l.length - 1 < l.length := by omega
    have hjj : j = l.length - 1 := by
      rw [hij, hzero, Nat.zero_add, Nat.mod_eq_of_lt hlt]
    rw [List.get?_eq_get hlt]
    congr 1
    exact congrArg l.get (Fin.ext hjj.symm)
  · rw [if_neg hzero]
    have hlt : i - 1 < l.length := by omega
    have hjj : j = i - 1 := by
      have h1 : i + l.length - 1 = (i - 1) + l.length := by omega
      rw [hij, h1, Nat.add_mod_right, Nat.mod_eq_of_lt (by omega)]
    rw [List.get?_eq_get hlt]
    congr 1
    exact congrArg l.get (Fin.ext hjj.symm)

lemma get?_zero_eq_headI {α : Type} [Inhabited α] {l : List α} (h : l ≠ []) :
    l.get? 0 = some l.headI := by
  cases l with
  | nil => exact absurd rfl h
  | cons a t => rfl

lemma vecDedup_cons {α : Type} [DecidableEq α] :
    ∀ (rest : List α) (b : α), ∃ t, vecDedup (b :: rest) = b :: t := by
  intro rest
  induction rest with
  | nil => exact fun b => ⟨[], rfl⟩
  | cons c t ih =>
    intro b
    by_cases hbc : b = c
    · rcases ih c with ⟨u, hu⟩
      exact ⟨u, by rw [vecDedup, if_pos hbc, hu, hbc]⟩
    · exact ⟨vecDedup (c :: t), by rw [vecDedup, if_neg hbc]⟩

lemma chain'_ne_vecDedup {α : Type} [DecidableEq α] :
    ∀ l : List α, List.Chain' (fun a b => a ≠ b) (vecDedup l)
  | [] => List.chain'_nil
  | [a] => by simp [vecDedup]
  | a :: b :: rest => by
    have ih := chain'_ne_vecDedup (b :: rest)
    by_cases hab : a = b
    · rw [vecDedup, if_pos hab]
      exact ih
    · rw [vecDedup, if_neg hab]
      rcases vecDedup_cons rest b with ⟨t, ht⟩
      rw [ht] at ih ⊢
      exact List.chain'_cons.mpr ⟨hab, ih⟩

lemma find?_get_first {α : Type} {p : α → Bool} :
    ∀ {l : List α} {i : Nat} (hi : i < l.length),
      p (l.get ⟨i, hi⟩) = true →
      (∀ j (hj : j < i), p (l.get ⟨j, Nat.lt_trans hj hi⟩) = false) →
      l.find? p = some (l.get ⟨i, hi⟩) := by
  intro l
  induction l with
  | nil => intro i hi; simp at hi
  | cons b t ih =>
    intro i hi hp hfirst
    cases i with
    | zero => simpa using List.find?_cons_of_pos t hp
    | succ j =>
      have hb : p b = false := hfirst 0 (Nat.succ_pos j)
      have hj : j < t.length := by simpa using hi
      rw [List.find?_cons_of_neg t (by simp [hb])]
      exact ih hj hp (fun m hm => hfirst (m + 1) (Nat.succ_lt_succ hm))

/-! ### Claim theorems -/

/-- C2 (counterexample): the claim says `from_number n` is a member of
`view_modes` for every `1 <= n <= 9`, but `from_number 9` is `LogsOnly`,
which is not in the `view_modes` list. -/
theorem claim_C2_counterexample :
    UiMode.from_number 9 = UiMode.LogsOnly ∧
    UiMode.from_number 9 ∉ UiMode.view_modes := by
  exact ⟨rfl, by decide⟩

/-- C2 (amended): for `1 <= n <= 8`, `UiMode.from_number n` is a member of
`UiMode.view_modes`; `from_number 9` returns `LogsOnly` (not a view mode);
and for every `n` outside `1..9` the fallback `TitleBody` is returned (the
function is total, so no panic). -/
theorem claim_C2 :
    (∀ n : Nat, 1 ≤ n → n ≤ 8 → UiMode.from_number n ∈ UiMode.view_modes) ∧
    UiMode.from_number 9 = UiMode.LogsOnly ∧
    (∀ n : Nat, n = 0 ∨ 10 ≤ n → UiMode.from_number n = UiMode.TitleBody) := by
  refine ⟨?_, rfl, ?_⟩
  · intro n h1 h8
    interval_cases n <;> decide
  · intro n h
    rcases h with h | h
    · subst h; rfl
    · obtain ⟨m, rfl⟩ : ∃ m, n = m + 10 := ⟨n - 10, by omega⟩
      rfl

/-- C2 witness: the amended theorem evaluated at `n = 3` and `n = 42`. -/
theorem claim_C2_witness :
    UiMode.from_number 3 ∈ UiMode.view_modes ∧
    UiMode.from_number 42 = UiMode.TitleBody :=
  ⟨claim_C2.1 3 (by decide) (by decide), claim_C2.2.2 42 (Or.inr (by decide))⟩

/-- C3 (counterexample): the claim says the stored list after
`edit_keybinding` is duplicate-free even when duplicates are not adjacent,
but Rust's `Vec::dedup` removes only consecutive duplicates: editing
binding `Accept` with `[a, b, a]` stores `[a, b, a]`, which contains a
duplicate. -/
theorem claim_C3_counterexample :
    KeyBindingEnum.from_str "Accept" = some KeyBindingEnum.Accept ∧
    (KeyBindings.default.edit_keybinding "Accept"
        [Key.Char 'a', Key.Char 'b', Key.Char 'a']).get_keybindings
        KeyBindingEnum.Accept =
      some [Key.Char 'a', Key.Char 'b', Key.Char 'a'] ∧
    ¬ ([Key.Char 'a', Key.Char 'b', Key.Char 'a'] : List Key).Nodup := by
  refine ⟨by decide, by decide, by decide⟩

/-- C3 (amended): for every identifier that parses to a binding name, the
stored list after `edit_keybinding` is the input list with *consecutive*
duplicate keys collapsed (Rust `Vec::dedup` semantics), keeping the first
key of each run; in particular no two adjacent stored keys are equal.
Non-adjacent duplicates survive. -/
theorem claim_C3 (kb : KeyBindings) (s : String) (ks : List Key)
    (e : KeyBindingEnum) (h : KeyBindingEnum.from_str s = some e) :
    (kb.edit_keybinding s ks).get_keybindings e = some (vecDedup ks) ∧
    List.Chain' (fun a b => a ≠ b) (vecDedup ks) := by
  constructor
  · simp only [KeyBindings.edit_keybinding, h]
    show (kb.set_field e (vecDedup ks)).get_keybindings e = some (vecDedup ks)
    cases e <;> rfl
  · exact chain'_ne_vecDedup ks

/-- C3 witness: the amended theorem evaluated on the `Quit` binding and a
list with an adjacent duplicate. -/
theorem claim_C3_witness :
    (KeyBindings.default.edit_keybinding "Quit"
        [Key.Ctrl 'c', Key.Ctrl 'c', Key.Char 'q']).get_keybindings
        KeyBindingEnum.Quit =
      some (vecDedup [Key.Ctrl 'c', Key.Ctrl 'c', Key.Char 'q']) ∧
    List.Chain' (fun a b => a ≠ b)
      (vecDedup [Key.Ctrl 'c', Key.Ctrl 'c', Key.Char 'q']) :=
  claim_C3 KeyBindings.default "Quit" [Key.Ctrl 'c', Key.Ctrl 'c', Key.Char 'q']
    KeyBindingEnum.Quit (by decide)

/-- C4: display-string round-trip in both directions: parsing the display
string of any `UiMode` returns that mode, and any string accepted by
`from_string` is the display string of the returned mode. -/
theorem claim_C4 :
    (∀ m : UiMode, UiMode.from_string (UiMode.to_string m) = some m) ∧
    (∀ (s : String) (m : UiMode),
        UiMode.from_string s = some m → UiMode.to_string m = s) := by
  constructor
  · intro m; cases m <;> rfl
  · intro s m h
    unfold UiMode.from_string at h
    split at h <;> cases h <;> rfl

/-- C4 witness: the round-trip evaluated at `Zen` and `"Main Menu"`. -/
theorem claim_C4_witness :
    UiMode.from_string (UiMode.to_string UiMode.Zen) = some UiMode.Zen ∧
    UiMode.to_string UiMode.MainMenu = "Main Menu" :=
  ⟨claim_C4.1 UiMode.Zen, claim_C4.2 "Main Menu" UiMode.MainMenu (by decide)⟩

/-- C8: editing with an identifier that parses to no binding name leaves
the whole table unchanged (and, the embedding being total, no error is
surfaced). -/
theorem claim_C8 (kb : KeyBindings) (s : String) (ks : List Key)
    (h : KeyBindingEnum.from_str s = none) :
    kb.edit_keybinding s ks = kb := by
  simp only [KeyBindings.edit_keybinding, h]

/-- C8 witness: the no-op evaluated on the default table and an unknown
identifier. -/
theorem claim_C8_witness :
    KeyBindings.default.edit_keybinding "NotABinding" [Key.Char 'x'] =
      KeyBindings.default :=
  claim_C8 KeyBindings.default "NotABinding" [Key.Char 'x'] (by decide)

/-- C9: the default table binds all 34 binding names with a non-empty key
list; every default-bound key resolves through `key_to_action` to the
action of its own binding; `Ctrl+c` and `q` both resolve to `Quit`; the
unbound key `z` resolves to nothing. -/
theorem claim_C9 :
    KeyBindings.default.iter.length = 34 ∧
    (∀ p ∈ KeyBindings.default.iter, p.2 ≠ []) ∧
    (∀ p ∈ KeyBindings.default.iter, ∀ k ∈ p.2,
        KeyBindings.default.key_to_action k =
          some (KeyBindings.default.keybinding_enum_to_action p.1)) ∧
    KeyBindings.default.key_to_action (Key.Ctrl 'c') = some Action.Quit ∧
    KeyBindings.default.key_to_action (Key.Char 'q') = some Action.Quit ∧
    KeyBindings.default.key_to_action (Key.Char 'z') = none := by
  refine ⟨by decide, by decide, by decide, by decide, by decide, by decide⟩

/-- C9 witness: the per-binding conjuncts of `claim_C9` evaluated at the
concrete `Accept` entry of the default table. -/
theorem claim_C9_witness :
    ((KeyBindingEnum.Accept, [Key.Enter]) : KeyBindingEnum × List Key).2 ≠ [] ∧
    KeyBindings.default.key_to_action Key.Enter =
      some (KeyBindings.default.keybinding_enum_to_action
        ((KeyBindingEnum.Accept, [Key.Enter]) : KeyBindingEnum × List Key).1) :=
  ⟨claim_C9.2.1 (KeyBindingEnum.Accept, [Key.Enter]) (by decide),
    claim_C9.2.2.1 (KeyBindingEnum.Accept, [Key.Enter]) (by decide) Key.Enter
      (by decide)⟩

/-- C10: editing a binding that parses to variant `e` leaves the stored
key list of every other binding name unchanged. -/
theorem claim_C10 (kb : KeyBindings) (s : String) (ks : List Key)
    (e : KeyBindingEnum) (h : KeyBindingEnum.from_str s = some e) :
    ∀ e' : KeyBindingEnum, e' ≠ e →
      (kb.edit_keybinding s ks).get_keybindings e' = kb.get_keybindings e' := by
  intro e' hne
  simp only [KeyBindings.edit_keybinding, h]
  show (kb.set_field e (vecDedup ks)).get_keybindings e' = kb.get_keybindings e'
  cases e <;> cases e' <;> first
    | exact absurd rfl hne
    | rfl

/-- C10 witness: editing `Quit` leaves the `Accept` binding unchanged. -/
theorem claim_C10_witness :
    (KeyBindings.default.edit_keybinding "Quit" [Key.Char 'x']).get_keybindings
        KeyBindingEnum.Accept =
      KeyBindings.default.get_keybindings KeyBindingEnum.Accept :=
  claim_C10 KeyBindings.default "Quit" [Key.Char 'x'] KeyBindingEnum.Quit
    (by decide) KeyBindingEnum.Accept (by decide)

/-- C7: on every non-empty target list, `Focus::next` and `Focus::prev`
are total — the embedded functions (whose `none` marks a reachable panic
at the `position` unwrap or a slice index) always return `some`, and the
result is an element of the list. -/
theorem claim_C7 (f : Focus) (l : List Focus) (hne : l ≠ []) :
    (∃ r, Focus.next f l = some r ∧ r ∈ l) ∧
    (∃ r, Focus.prev f l = some r ∧ r ∈ l) := by
  have hpos : 0 < l.length := List.length_pos.mpr hne
  constructor
  · by_cases hm : f ∈ l
    · rcases position_isSome_of_mem hm with ⟨i, hi⟩
      have hilt := position_lt_length hi
      unfold Focus.next
      rw [if_pos hm, hi]
      show ∃ r, (if i = l.length - 1 then l.get? 0 else l.get? (i + 1)) = some r ∧ r ∈ l
      by_cases hlast : i = l.length - 1
      · rw [if_pos hlast, List.get?_eq_get hpos]
        exact ⟨_, rfl, List.get_mem l 0 hpos⟩
      · have hs : i + 1 < l.length := by omega
        rw [if_neg hlast, List.get?_eq_get hs]
        exact ⟨_, rfl, List.get_mem l (i + 1) hs⟩
    · unfold Focus.next
      rw [if_neg hm, List.get?_eq_get hpos]
      exact ⟨_, rfl, List.get_mem l 0 hpos⟩
  · by_cases hm : f ∈ l
    · rcases position_isSome_of_mem hm with ⟨i, hi⟩
      have hilt := position_lt_length hi
      unfold Focus.prev
      rw [if_pos hm, hi]
      show ∃ r, (if i = 0 then l.get? (l.length - 1) else l.get? (i - 1)) = some r ∧ r ∈ l
      by_cases hzero : i = 0
      · have hlt : l.length - 1 < l.length := by omega
        rw [if_pos hzero, List.get?_eq_get hlt]
        exact ⟨_, rfl, List.get_mem l (l.length - 1) hlt⟩
      · have hlt : i - 1 < l.length := by omega
        rw [if_neg hzero, List.get?_eq_get hlt]
        exact ⟨_, rfl, List.get_mem l (i - 1) hlt⟩
    · unfold Focus.prev
      rw [if_neg hm, List.get?_eq_get hpos]
      exact ⟨_, rfl, List.get_mem l 0 hpos⟩

/-- C7 witness: totality evaluated on a one-element list and a focus not
in the list. -/
theorem claim_C7_witness :
    (∃ r, Focus.next Focus.NoFocus [Focus.Body] = some r ∧ r ∈ [Focus.Body]) ∧
    (∃ r, Focus.prev Focus.NoFocus [Focus.Body] = some r ∧ r ∈ [Focus.Body]) :=
  claim_C7 Focus.NoFocus [Focus.Body] (by decide)

/-- C6: on a non-empty duplicate-free target list, `Focus::prev` inverts
`Focus::next` and vice versa for every focus in the list; a focus absent
from the list is sent to the first element by both; and every
`get_available_targets` list is such a list (non-empty and
duplicate-free). -/
theorem claim_C6 (l : List Focus) (f : Focus) (hnd : l.Nodup) (hne : l ≠ []) :
    (f ∈ l →
      (Focus.next f l).bind (fun g => Focus.prev g l) = some f ∧
      (Focus.prev f l).bind (fun g => Focus.next g l) = some f) ∧
    (f ∉ l →
      Focus.next f l = some l.headI ∧ Focus.prev f l = some l.headI) ∧
    (∀ m : UiMode, m.get_available_targets.Nodup ∧ m.get_available_targets ≠ []) := by
  have hpos : 0 < l.length := List.length_pos.mpr hne
  refine ⟨?_, ?_, by intro m; cases m <;> exact ⟨by decide, by decide⟩⟩
  · intro hm
    rcases List.mem_iff_get.mp hm with ⟨⟨i, hi⟩, rfl⟩
    have hj1 : (i + 1) % l.length < l.length := Nat.mod_lt _ hpos
    have hj2 : (i + l.length - 1) % l.length < l.length := Nat.mod_lt _ hpos
    constructor
    · rw [next_get_nodup hnd hi hj1 rfl]
      show Focus.prev (l.get ⟨(i + 1) % l.length, hj1⟩) l = some (l.get ⟨i, hi⟩)
      refine prev_get_nodup hnd hj1 hi ?_
      have h1 : (i + 1) % l.length + l.length - 1 =
          (i + 1) % l.length + (l.length - 1) := by omega
      rw [h1, Nat.mod_add_mod]
      have h2 : i + 1 + (l.length - 1) = i + l.length := by omega
      rw [h2, Nat.add_mod_right, Nat.mod_eq_of_lt hi]
    · rw [prev_get_nodup hnd hi hj2 rfl]
      show Focus.next (l.get ⟨(i + l.length - 1) % l.length, hj2⟩) l =
        some (l.get ⟨i, hi⟩)
      refine next_get_nodup hnd hj2 hi ?_
      rw [Nat.mod_add_mod]
      have h2 : i + l.length - 1 + 1 = i + l.length := by omega
      rw [h2, Nat.add_mod_right, Nat.mod_eq_of_lt hi]
  · intro hm
    constructor
    · unfold Focus.next
      rw [if_neg hm, get?_zero_eq_headI hne]
    · unfold Focus.prev
      rw [if_neg hm, get?_zero_eq_headI hne]

/-- C6 witness: the inverse law evaluated on `BodyHelp`'s target list at
`Body`, and the stale-focus repair at `CardName`. -/
theorem claim_C6_witness :
    ((Focus.next Focus.Body [Focus.Body, Focus.Help]).bind
        (fun g => Focus.prev g [Focus.Body, Focus.Help]) = some Focus.Body ∧
      (Focus.prev Focus.Body [Focus.Body, Focus.Help]).bind
        (fun g => Focus.next g [Focus.Body, Focus.Help]) = some Focus.Body) ∧
    (Focus.next Focus.CardName [Focus.Body, Focus.Help] =
        some ([Focus.Body, Focus.Help] : List Focus).headI ∧
      Focus.prev Focus.CardName [Focus.Body, Focus.Help] =
        some ([Focus.Body, Focus.Help] : List Focus).headI) :=
  ⟨(claim_C6 [Focus.Body, Focus.Help] Focus.Body (by decide) (by decide)).1
      (by decide),
    (claim_C6 [Focus.Body, Focus.Help] Focus.CardName (by decide) (by decide)).2.1
      (by decide)⟩

/-- C5: `key_to_action` returns `none` when no binding's stored list
contains the key, and otherwise the action of the *first* binding name in
the fixed `KeyBindingEnum` iteration order whose stored list contains the
key. -/
theorem claim_C5 (kb : KeyBindings) (k : Key) :
    ((∀ p ∈ kb.iter, k ∉ p.2) → kb.key_to_action k = none) ∧
    (∀ i (hi : i < kb.iter.length),
        k ∈ (kb.iter.get ⟨i, hi⟩).2 →
        (∀ j (hj : j < i), k ∉ (kb.iter.get ⟨j, Nat.lt_trans hj hi⟩).2) →
        kb.key_to_action k =
          some (kb.keybinding_enum_to_action (kb.iter.get ⟨i, hi⟩).1)) := by
  constructor
  · intro h
    have hfind : kb.iter.find? (fun p => decide (k ∈ p.2)) = none := by
      rw [List.find?_eq_none]
      intro x hx
      simpa using h x hx
    simp [KeyBindings.key_to_action, hfind]
  · intro i hi hmem hfirst
    have hfind := find?_get_first (p := fun p => decide (k ∈ p.2)) hi
      (by simpa using hmem) (fun j hj => by simpa using hfirst j hj)
    simp [KeyBindings.key_to_action, hfind]

/-- C5 witness: resolution evaluated on the default table at the
first-binding key `Enter` (no earlier binding exists, so the
first-occurrence hypothesis is vacuous). -/
theorem claim_C5_witness :
    KeyBindings.default.key_to_action Key.Enter = some Action.Accept := by
  have h := (claim_C5 KeyBindings.default Key.Enter).2 0 (by decide) (by decide)
    (fun j hj => absurd hj (Nat.not_lt_zero j))
  exact h.trans (by decide)

/-- C1: the focus-repair step of `UiMode::render`: with no popup active,
a focus outside the mode's target list (the list being non-empty) is
reset to the first target; a focus already in the list, or any active
popup, leaves the state unchanged; hence after `render` the focus is
always a legal target whenever no popup is displayed. -/
theorem claim_C1 {P : Type} (m : UiMode) (st : AppState P) :
    (st.popup_mode = none → st.focus ∉ m.get_available_targets →
        m.get_available_targets ≠ [] →
        (m.render st).focus = m.get_available_targets.headI) ∧
    (st.popup_mode = none → st.focus ∈ m.get_available_targets →
        m.render st = st) ∧
    (∀ pm, st.popup_mode = some pm → m.render st = st) ∧
    (st.popup_mode = none → (m.render st).focus ∈ m.get_available_targets) := by
  have hne : m.get_available_targets ≠ [] := by cases m <;> decide
  refine ⟨?_, ?_, ?_, ?_⟩
  · intro hp hnm hne'
    simp [UiMode.render, hp, hnm, hne']
  · intro hp hm
    simp [UiMode.render, hp, hm]
  · intro pm hp
    unfold UiMode.render
    rw [hp]
    rfl
  · intro hp
    by_cases hm : st.focus ∈ m.get_available_targets
    · simp [UiMode.render, hp, hm]
    · simp only [UiMode.render, hp, Option.isNone_none, if_true]
      rw [if_pos ⟨hm, hne⟩]
      exact headI_mem_of_ne_nil hne

/-- C1 witness: the spec scenario — activating `ConfigMenu` with focus
`CardName` and no popup resets the focus to `ConfigTable`. -/
theorem claim_C1_witness :
    ((UiMode.ConfigMenu.render (⟨none, Focus.CardName⟩ : AppState Unit)).focus =
        Focus.ConfigTable) ∧
    (∀ pm : Unit,
        (⟨some pm, Focus.CardName⟩ : AppState Unit).popup_mode = some pm →
        UiMode.ConfigMenu.render (⟨some pm, Focus.CardName⟩ : AppState Unit) =
          ⟨some pm, Focus.CardName⟩) :=
  ⟨((claim_C1 UiMode.ConfigMenu (⟨none, Focus.CardName⟩ : AppState Unit)).1
      rfl (by decide) (by decide)).trans rfl,
    fun pm => (claim_C1 UiMode.ConfigMenu
      (⟨some pm, Focus.CardName⟩ : AppState Unit)).2.2.1 pm⟩

end RustKanban
